import Mathlib

/-!
Verification of the Causal Path Discovery and Graph Construction Engine.

Shallow embedding of the engine's core, translated from the repository's
Python sources:

* `healthos_bot/indra_agent/services/graph_builder.py` (`GraphBuilderService`)
* `healthos_bot/indra_agent/config/cached_responses.py` (fixture store,
  genetic-modifier table)
* `indra_agent/services/indra_service.py` (`find_causal_paths`, `rank_paths`)
* `indra_agent/services/grounding_service.py` (`GroundingService`)

Python dicts that are iterated in insertion order are embedded as
association lists; machine floats are embedded as exact rationals (ℚ);
fallible remote calls are embedded as an explicit `Except` parameter.
-/

namespace DigitalMe

/-- Entity grounding record (`core/models.py`, `Grounding`). -/
structure Grounding where
  database : String
  identifier : String
deriving DecidableEq, Repr

/-- Causal graph node (`core/models.py`, `Node`). -/
structure Node where
  id : String
  type : String
  label : String
  grounding : Grounding
deriving DecidableEq, Repr

/-- Evidence supporting a causal relationship (`core/models.py`, `Evidence`). -/
structure Evidence where
  count : Nat
  confidence : ℚ
  sources : List String
  summary : String
deriving DecidableEq, Repr

/-- Causal graph edge (`core/models.py`, `Edge`).  `temporal_lag_hours` is an
`int` in the source, embedded as ℤ. -/
structure Edge where
  source : String
  target : String
  relationship : String
  evidence : Evidence
  effect_size : ℚ
  temporal_lag_hours : ℤ
deriving DecidableEq, Repr

/-- Genetic modifier (`core/models.py`, `GeneticModifier`). -/
structure GeneticModifier where
  variant : String
  affected_nodes : List String
  effect_type : String
  magnitude : ℚ
deriving DecidableEq, Repr

/-- Complete causal graph (`core/models.py`, `CausalGraph`). -/
structure CausalGraph where
  nodes : List Node
  edges : List Edge
  genetic_modifiers : List GeneticModifier
deriving DecidableEq, Repr

/-- Raw node dict of an INDRA path (keys `id`, `name`, `grounding.db`,
`grounding.id` as used by `GraphBuilderService._create_node`). -/
structure NodeData where
  id : String
  name : String
  grounding_db : String
  grounding_id : String
deriving DecidableEq, Repr

/-- Raw edge dict of an INDRA path (keys read by
`GraphBuilderService._create_edge`: `source`, `target`, `relationship`,
`evidence_count`, `belief`, `statement_type`, `pmids`). -/
structure EdgeData where
  source : String
  target : String
  relationship : String
  evidence_count : Nat
  belief : ℚ
  statement_type : String
  pmids : List String
deriving DecidableEq, Repr

/-- Raw INDRA path dict (keys `nodes`, `edges`, `path_belief`). -/
structure PathData where
  nodes : List NodeData
  edges : List EdgeData
  path_belief : ℚ
deriving DecidableEq, Repr

/-! Section: GraphBuilderService (graph_builder.py) -/

/-- Embeds `GraphBuilderService.TEMPORAL_LAG_MAP` together with the
`.get(stmt_type, TEMPORAL_LAG_MAP["default"])` access in `_create_edge`. -/
def TEMPORAL_LAG_MAP (stmt_type : String) : ℤ :=
  if stmt_type = "Phosphorylation" then 1
  else if stmt_type = "Complex" then 2
  else if stmt_type = "Activation" then 6
  else if stmt_type = "IncreaseAmount" then 12
  else if stmt_type = "DecreaseAmount" then 12
  else if stmt_type = "Inhibition" then 6
  else 6

/-- Embeds `GraphBuilderService._calculate_effect_size`. -/
def calculate_effect_size (belief : ℚ) (evidence_count : Nat) : ℚ :=
  let effect := belief * 0.8
  let effect :=
    if evidence_count > 100 then effect + 0.15
    else if evidence_count > 50 then effect + 0.10
    else if evidence_count > 20 then effect + 0.05
    else effect
  min effect 0.95

/-- Embeds `GraphBuilderService._create_edge`. -/
def create_edge (d : EdgeData) : Edge :=
  { source := d.source
    target := d.target
    relationship := d.relationship
    evidence :=
      { count := d.evidence_count
        confidence := d.belief
        sources := d.pmids.take 3
        summary := d.source ++ " " ++ d.relationship ++ " " ++ d.target }
    effect_size := calculate_effect_size d.belief d.evidence_count
    temporal_lag_hours := TEMPORAL_LAG_MAP d.statement_type }

/-- Embeds `GraphBuilderService._infer_node_type`. -/
def infer_node_type (node_id : String) (database : String) : String :=
  if node_id ∈ (["PM2.5", "PM10", "ozone", "NO2"] : List String) ∨ database = "MESH" then
    "environmental"
  else if database = "GO" ∨ node_id ∈ (["oxidative_stress", "inflammation"] : List String) then
    "molecular"
  else if node_id ∈ (["CRP", "IL6", "8-OHdG"] : List String) then
    "biomarker"
  else
    "molecular"

/-- Embeds `GraphBuilderService._create_node`. -/
def create_node (d : NodeData) : Node :=
  { id := d.id
    type := infer_node_type d.id d.grounding_db
    label := d.name
    grounding := { database := d.grounding_db, identifier := d.grounding_id } }

/-- One step of the node-collection loop in `build_causal_graph`: a node is
added only when its id is not yet in the node map (first occurrence wins). -/
def addNode (acc : List Node) (d : NodeData) : List Node :=
  if acc.any (fun n => n.id = d.id) then acc else acc ++ [create_node d]

/-- The node-collection loops of `build_causal_graph` (insertion-ordered
`node_map`). -/
def collectNodes (paths : List PathData) : List Node :=
  paths.foldl (fun acc p => p.nodes.foldl addNode acc) []

/-- Deduplication key used by `_deduplicate_edges`. -/
def edgeKey (e : Edge) : String × String × String :=
  (e.source, e.target, e.relationship)

/-- One step of `_deduplicate_edges`: Python-dict update of `edge_map[key]`,
keeping the incumbent unless the new edge has a strictly higher evidence
count; an unseen key is appended at the end (insertion order). -/
def insertEdge : List ((String × String × String) × Edge) → Edge →
    List ((String × String × String) × Edge)
  | [], e => [(edgeKey e, e)]
  | kv :: rest, e =>
    if kv.1 = edgeKey e then
      (if e.evidence.count > kv.2.evidence.count then (kv.1, e) else kv) :: rest
    else
      kv :: insertEdge rest e

/-- Embeds `GraphBuilderService._deduplicate_edges` (`list(edge_map.values())`). -/
def deduplicate_edges (edges : List Edge) : List Edge :=
  (edges.foldl insertEdge []).map Prod.snd

/-- Value type of the `GENETIC_MODIFIERS` table (`cached_responses.py`). -/
structure ModifierInfo where
  affected_nodes : List String
  effect_type : String
  magnitude : ℚ
  description : String
deriving DecidableEq, Repr

/-- The `GENETIC_MODIFIERS` table of `cached_responses.py`, accessed through
`get_genetic_modifier` (`GENETIC_MODIFIERS.get(variant, {})`; `none` embeds
the empty-dict miss). -/
def get_genetic_modifier (variant : String) : Option ModifierInfo :=
  if variant = "GSTM1_null" then
    some { affected_nodes := ["oxidative_stress", "ROS"]
           effect_type := "amplifies"
           magnitude := 1.3
           description := "GSTM1 null variant reduces glutathione conjugation capacity" }
  else if variant = "GSTP1_Val/Val" then
    some { affected_nodes := ["oxidative_stress"]
           effect_type := "amplifies"
           magnitude := 1.15
           description := "GSTP1 Val/Val reduces detoxification efficiency" }
  else if variant = "TNF-alpha_-308G/A" then
    some { affected_nodes := ["TNF", "IL6"]
           effect_type := "amplifies"
           magnitude := 1.2
           description := "TNF-alpha -308G/A increases inflammatory response" }
  else if variant = "SOD2_Ala/Ala" then
    some { affected_nodes := ["oxidative_stress", "ROS"]
           effect_type := "dampens"
           magnitude := 0.85
           description := "SOD2 Ala/Ala enhances mitochondrial antioxidant defense" }
  else
    none

/-- Embeds `variant.replace("/", "")` of `_apply_genetic_modifiers`: removing every
slash is the same as filtering them out of the character data. -/
def removeSlash (s : String) : String :=
  String.mk (s.data.filter (fun c => c ≠ '/'))

/-- The lookup key `f"{gene}_{variant.replace('/', '')}"` built by
`_apply_genetic_modifiers`. -/
def variantKey (gene : String) (variant : String) : String :=
  gene ++ "_" ++ removeSlash variant

/-- One iteration of the `for gene, variant in genetics.items()` loop of
`_apply_genetic_modifiers`: look the key up, and append a modifier only
when at least one declared affected node is present in the graph,
recording only that present subset. -/
def applyStep (node_ids : List String) (acc : List GeneticModifier)
    (gv : String × String) : List GeneticModifier :=
  match get_genetic_modifier (variantKey gv.1 gv.2) with
  | none => acc
  | some info =>
    let present := info.affected_nodes.filter (fun n => n ∈ node_ids)
    if present ≠ [] then
      acc ++ [{ variant := variantKey gv.1 gv.2
                affected_nodes := present
                effect_type := info.effect_type
                magnitude := info.magnitude }]
    else acc

/-- Embeds `GraphBuilderService._apply_genetic_modifiers`.  The Python dict
`genetics` is embedded as an insertion-ordered association list. -/
def apply_genetic_modifiers (genetics : List (String × String))
    (node_ids : List String) : List GeneticModifier :=
  genetics.foldl (applyStep node_ids) []

/-- Embeds `GraphBuilderService.build_causal_graph`. -/
def build_causal_graph (paths : List PathData)
    (genetics : List (String × String)) : CausalGraph :=
  let nodes := collectNodes paths
  let edges := deduplicate_edges ((paths.flatMap (fun p => p.edges)).map create_edge)
  { nodes := nodes
    edges := edges
    genetic_modifiers := apply_genetic_modifiers genetics (nodes.map (fun n => n.id)) }

/-! Section: ExplanationComposer (`GraphBuilderService.generate_explanations`) -/

/-- The `environmental_data["delta"]` sub-dict read by
`generate_explanations`; the formatted values are embedded as the strings
they print as. -/
structure Delta where
  description : String
  old_value : String
  new_value : String
deriving DecidableEq, Repr

/-- Python `int()` truncation toward zero, applied to
`(modifier.magnitude - 1) * 100`. -/
def intTrunc (q : ℚ) : ℤ :=
  if 0 ≤ q then ⌊q⌋ else ⌈q⌉

/-- Python `f"{x:.2f}"` fixed-point rendering of a confidence in `[0, 1]`:
two decimals, rounding half away from zero on the nonnegative values used
here. -/
def format2 (q : ℚ) : String :=
  let m := ⌊q * 100 + 1 / 2⌋
  let m := m.toNat
  toString (m / 100) ++ "." ++
    (if m % 100 < 10 then "0" else "") ++ toString (m % 100)

/-- The environmental-delta narrative of `generate_explanations`. -/
def envLine (d : Delta) : String :=
  "PM2.5 exposure " ++ d.description ++ " (" ++ d.old_value ++ " to " ++
    d.new_value ++ " µg/m³)"

/-- The genetic-modifier narrative of `generate_explanations`. -/
def geneLine (m : GeneticModifier) : String :=
  "Your " ++ m.variant ++ " variant " ++ m.effect_type ++
    " the response by " ++ toString (intTrunc ((m.magnitude - 1) * 100)) ++ "%"

/-- Embeds `max(causal_graph.edges, key=lambda e: e.evidence.count)`: Python `max`
returns the first maximal element, which the strict-`>` fold keeps. -/
def maxEvidenceEdge (e₀ : Edge) (rest : List Edge) : Edge :=
  rest.foldl (fun best e => if e.evidence.count > best.evidence.count then e else best) e₀

/-- The highest-evidence-edge narrative of `generate_explanations`. -/
def edgeLine (e : Edge) : String :=
  e.source ++ " " ++ e.relationship ++ " " ++ e.target ++ " (" ++
    toString e.evidence.count ++ " papers, confidence: " ++
    format2 e.evidence.confidence ++ ")"

/-- Embeds `GraphBuilderService.generate_explanations`.  `env` is `some d` exactly
when `"delta" in environmental_data`; the `while len < 3` padding loop is
the `List.replicate` below; the final `[:5]` is `List.take 5`. -/
def generate_explanations (g : CausalGraph) (env : Option Delta)
    (genetics : List (String × String)) : List String :=
  let e₁ := match env with
    | some d => [envLine d]
    | none => []
  let e₂ := match genetics, g.genetic_modifiers with
    | _ :: _, m :: _ => [geneLine m]
    | _, _ => []
  let e₃ := match g.edges with
    | e :: rest => [edgeLine (maxEvidenceEdge e rest)]
    | [] => []
  let e₄ :=
    if g.nodes.length ≥ 3 then
      ["Causal chain: " ++ String.intercalate " → " ((g.nodes.take 3).map (fun n => n.label))]
    else []
  let e₅ := match g.nodes.filter (fun n => n.type = "biomarker") with
    | b :: _ => ["Expected impact on " ++ b.label ++ " based on mechanistic evidence"]
    | [] => []
  let explanations := e₁ ++ e₂ ++ e₃ ++ e₄ ++ e₅
  let padded := explanations ++
    List.replicate (3 - explanations.length)
      ("Analysis based on " ++ toString g.edges.length ++ " causal relationships")
  padded.take 5

/-! Section: Fixture store (`cached_responses.py`, `CACHED_INDRA_PATHS`) -/

/-- First `"PM2.5_to_IL6"` fixture path (via NF-κB). -/
def pm25_il6_path₁ : PathData :=
  { nodes :=
      [ { id := "PM2.5", name := "Particulate Matter (PM2.5)",
          grounding_db := "MESH", grounding_id := "D052638" }
      , { id := "NFKB1", name := "NF-κB p50",
          grounding_db := "HGNC", grounding_id := "7794" }
      , { id := "IL6", name := "Interleukin-6",
          grounding_db := "HGNC", grounding_id := "6018" } ]
    edges :=
      [ { source := "PM2.5", target := "NFKB1", relationship := "activates",
          evidence_count := 47, belief := 0.82, statement_type := "Activation",
          pmids := ["PMID:12345678", "PMID:23456789", "PMID:34567890"] }
      , { source := "NFKB1", target := "IL6", relationship := "increases",
          evidence_count := 89, belief := 0.91, statement_type := "IncreaseAmount",
          pmids := ["PMID:34567891", "PMID:45678902"] } ]
    path_belief := 0.86 }

/-- Second `"PM2.5_to_IL6"` fixture path (via oxidative stress). -/
def pm25_il6_path₂ : PathData :=
  { nodes :=
      [ { id := "PM2.5", name := "Particulate Matter (PM2.5)",
          grounding_db := "MESH", grounding_id := "D052638" }
      , { id := "oxidative_stress", name := "Oxidative Stress",
          grounding_db := "GO", grounding_id := "0006979" }
      , { id := "RELA", name := "NF-κB p65 (RELA)",
          grounding_db := "HGNC", grounding_id := "9955" }
      , { id := "IL6", name := "Interleukin-6",
          grounding_db := "HGNC", grounding_id := "6018" } ]
    edges :=
      [ { source := "PM2.5", target := "oxidative_stress", relationship := "increases",
          evidence_count := 31, belief := 0.78, statement_type := "Activation",
          pmids := ["PMID:56789012"] }
      , { source := "oxidative_stress", target := "RELA", relationship := "activates",
          evidence_count := 24, belief := 0.75, statement_type := "Activation",
          pmids := ["PMID:67890123"] }
      , { source := "RELA", target := "IL6", relationship := "increases",
          evidence_count := 76, belief := 0.89, statement_type := "IncreaseAmount",
          pmids := ["PMID:78901234"] } ]
    path_belief := 0.81 }

/-- The `"IL6_to_CRP"` fixture path. -/
def il6_crp_path : PathData :=
  { nodes :=
      [ { id := "IL6", name := "Interleukin-6",
          grounding_db := "HGNC", grounding_id := "6018" }
      , { id := "CRP", name := "C-Reactive Protein",
          grounding_db := "HGNC", grounding_id := "2367" } ]
    edges :=
      [ { source := "IL6", target := "CRP", relationship := "increases",
          evidence_count := 312, belief := 0.98, statement_type := "IncreaseAmount",
          pmids := ["PMID:45678901", "PMID:56789012"] } ]
    path_belief := 0.98 }

/-- The `"PM2.5_to_oxidative_stress"` fixture path. -/
def pm25_ox_path : PathData :=
  { nodes :=
      [ { id := "PM2.5", name := "Particulate Matter (PM2.5)",
          grounding_db := "MESH", grounding_id := "D052638" }
      , { id := "ROS", name := "Reactive Oxygen Species",
          grounding_db := "MESH", grounding_id := "D017382" }
      , { id := "oxidative_stress", name := "Oxidative Stress",
          grounding_db := "GO", grounding_id := "0006979" } ]
    edges :=
      [ { source := "PM2.5", target := "ROS", relationship := "increases",
          evidence_count := 52, belief := 0.85, statement_type := "IncreaseAmount",
          pmids := ["PMID:11111111"] }
      , { source := "ROS", target := "oxidative_stress", relationship := "increases",
          evidence_count := 87, belief := 0.92, statement_type := "Activation",
          pmids := ["PMID:22222222"] } ]
    path_belief := 0.88 }

/-- Embeds `cached_responses.get_cached_path`: lookup of
`CACHED_INDRA_PATHS[f"{source}_to_{target}"]` with `[]` on a miss. -/
def get_cached_path (source : String) (target : String) : List PathData :=
  let key := source ++ "_to_" ++ target
  if key = "PM2.5_to_IL6" then [pm25_il6_path₁, pm25_il6_path₂]
  else if key = "IL6_to_CRP" then [il6_crp_path]
  else if key = "PM2.5_to_oxidative_stress" then [pm25_ox_path]
  else []

/-! Section: INDRAService (`indra_service.py`) -/

/-- The runtime cache `self.cache`, a string-keyed dict embedded as an
association list where the most recent binding for a key is found first. -/
def RuntimeCache : Type := List (String × List PathData)

/-- Dict lookup `self.cache[cache_key]` / `cache_key in self.cache`. -/
def cacheLookup (cache : RuntimeCache) (key : String) : Option (List PathData) :=
  match cache with
  | [] => none
  | kv :: rest => if kv.1 = key then some kv.2 else cacheLookup rest key

/-- The runtime-cache key `f"{source}_{target}_{max_depth}"`. -/
def runtimeKey (source : String) (target : String) (max_depth : Nat) : String :=
  source ++ "_" ++ target ++ "_" ++ toString max_depth

/-- Embeds `INDRAService.find_causal_paths`.  The live call
`self._query_path_search(...)` is embedded as the `remote` parameter:
`Except.error` is a raised network/parse exception (caught by the
surrounding `try`), `Except.ok` the parsed path list.  The function returns
the result together with the updated runtime cache; it is total, so no
exception escapes. -/
def find_causal_paths (cache : RuntimeCache) (source : String) (target : String)
    (max_depth : Nat) (use_cache : Bool)
    (remote : Except String (List PathData)) :
    List PathData × RuntimeCache :=
  let cache_key := runtimeKey source target max_depth
  match (if use_cache then cacheLookup cache cache_key else none) with
  | some v => (v, cache)
  | none =>
    let cached := get_cached_path source target
    if cached ≠ [] ∧ use_cache = true then
      (cached, (cache_key, cached) :: cache)
    else
      match remote with
      | Except.ok paths =>
        if paths ≠ [] then (paths, (cache_key, paths) :: cache)
        else ([], cache)
      | Except.error _ => ([], cache)

/-- The path score of `INDRAService.rank_paths.score_path`. -/
def score_path (p : PathData) : ℚ :=
  let total_evidence : ℚ := ((p.edges.map (fun e => e.evidence_count)).sum : Nat)
  let evidence_score := min (total_evidence / 20) 1
  let avg_belief := p.path_belief
  let path_length := p.nodes.length
  let length_score : ℚ := if path_length > 0 then 1 / (path_length : ℚ) else 0
  0.4 * evidence_score + 0.3 * avg_belief + 0.3 * length_score

/-- Embeds `INDRAService.rank_paths`: Python's `sorted(paths, key=score_path,
reverse=True)` is a stable descending sort, i.e. a stable sort under the
relation "score of the left is at least the score of the right". -/
def rank_paths (paths : List PathData) : List PathData :=
  paths.mergeSort (fun a b => score_path b ≤ score_path a)

/-! Section: GroundingService (`grounding_service.py`) -/

/-- A grounded-entity record of the static mapping tables.  The optional
`regulators` / `process` keys default to the values `.get` would supply. -/
structure GroundedEntity where
  id : String
  name : String
  type : String
  database : String
  identifier : String
  regulators : List String := []
  process : Option String := none
deriving DecidableEq, Repr

/-- Embeds `GroundingService.BIOMARKER_MAPPINGS` (insertion-ordered). -/
def BIOMARKER_MAPPINGS : List (String × GroundedEntity) :=
  [ ("CRP",
     { id := "CRP", name := "C-Reactive Protein", type := "biomarker",
       database := "HGNC", identifier := "2367",
       regulators := ["IL6", "IL1B", "TNF"] })
  , ("IL-6",
     { id := "IL6", name := "Interleukin-6", type := "biomarker",
       database := "HGNC", identifier := "6018",
       regulators := ["NFKB1", "RELA"] })
  , ("IL6",
     { id := "IL6", name := "Interleukin-6", type := "biomarker",
       database := "HGNC", identifier := "6018",
       regulators := ["NFKB1", "RELA"] })
  , ("8-OHdG",
     { id := "8-OHdG", name := "8-Hydroxy-2-deoxyguanosine", type := "biomarker",
       database := "CHEBI", identifier := "40304",
       process := some "oxidative_stress" }) ]

/-- Embeds `GroundingService.ENVIRONMENTAL_MAPPINGS`. -/
def ENVIRONMENTAL_MAPPINGS : List (String × GroundedEntity) :=
  [ ("PM2.5",
     { id := "PM2.5", name := "Particulate Matter (PM2.5)", type := "environmental",
       database := "MESH", identifier := "D052638" })
  , ("PM10",
     { id := "PM10", name := "Particulate Matter (PM10)", type := "environmental",
       database := "MESH", identifier := "D052638" })
  , ("ozone",
     { id := "ozone", name := "Ozone", type := "environmental",
       database := "CHEBI", identifier := "25812" })
  , ("NO2",
     { id := "NO2", name := "Nitrogen Dioxide", type := "environmental",
       database := "CHEBI", identifier := "33101" }) ]

/-- Embeds `GroundingService.MOLECULAR_MAPPINGS`. -/
def MOLECULAR_MAPPINGS : List (String × GroundedEntity) :=
  [ ("NFKB1",
     { id := "NFKB1", name := "NF-κB p50", type := "molecular",
       database := "HGNC", identifier := "7794" })
  , ("RELA",
     { id := "RELA", name := "NF-κB p65 (RELA)", type := "molecular",
       database := "HGNC", identifier := "9955" })
  , ("IL6",
     { id := "IL6", name := "Interleukin-6", type := "molecular",
       database := "HGNC", identifier := "6018" })
  , ("TNF",
     { id := "TNF", name := "TNF-α", type := "molecular",
       database := "HGNC", identifier := "11892" })
  , ("IL1B",
     { id := "IL1B", name := "IL-1β", type := "molecular",
       database := "HGNC", identifier := "5992" })
  , ("NFE2L2",
     { id := "NFE2L2", name := "NRF2 (NFE2L2)", type := "molecular",
       database := "HGNC", identifier := "7782" })
  , ("SOD1",
     { id := "SOD1", name := "Superoxide Dismutase 1", type := "molecular",
       database := "HGNC", identifier := "11179" })
  , ("ROS",
     { id := "ROS", name := "Reactive Oxygen Species", type := "molecular",
       database := "MESH", identifier := "D017382" }) ]

/-- Embeds `GroundingService.PROCESS_MAPPINGS`. -/
def PROCESS_MAPPINGS : List (String × GroundedEntity) :=
  [ ("oxidative_stress",
     { id := "oxidative_stress", name := "Oxidative Stress", type := "molecular",
       database := "GO", identifier := "0006979" })
  , ("inflammation",
     { id := "inflammation", name := "Inflammation", type := "molecular",
       database := "GO", identifier := "0006954" }) ]

/-- Python dict assignment `m[k] = v`: an existing key keeps its position and
gets the new value, a new key is appended at the end. -/
def dictInsert (m : List (String × GroundedEntity)) (k : String)
    (v : GroundedEntity) : List (String × GroundedEntity) :=
  if m.any (fun kv => kv.1 = k) then
    m.map (fun kv => if kv.1 = k then (k, v) else kv)
  else
    m ++ [(k, v)]

/-- Python dict merge `{**a, **b}`. -/
def dictMerge (a b : List (String × GroundedEntity)) : List (String × GroundedEntity) :=
  b.foldl (fun m kv => dictInsert m kv.1 kv.2) a

/-- Embeds `self.all_mappings`, the merge performed in `GroundingService.__init__`. -/
def all_mappings : List (String × GroundedEntity) :=
  dictMerge (dictMerge (dictMerge BIOMARKER_MAPPINGS ENVIRONMENTAL_MAPPINGS)
    MOLECULAR_MAPPINGS) PROCESS_MAPPINGS

/-- Python `str.lower()`, as a character-by-character map (the table keys
and display names are ASCII apart from already-lowercase Greek letters,
which both Python and `Char.toLower` leave unchanged). -/
def strLower (s : String) : String :=
  String.mk (s.data.map Char.toLower)

/-- Python's substring test `needle in hay` on lowercased strings. -/
def containsSub (hay : String) (needle : String) : Bool :=
  hay.data.tails.any (fun t => needle.data.isPrefixOf t)

/-- Embeds `GroundingService.ground_entity`: exact key match, then case-insensitive
key match, then substring match against the display names; `none` when all
three steps miss. -/
def ground_entity (entity_name : String) : Option GroundedEntity :=
  match (all_mappings.find? (fun kv => kv.1 = entity_name)).map Prod.snd with
  | some v => some v
  | none =>
    let entity_lower := strLower entity_name
    match all_mappings.find? (fun kv => strLower kv.1 = entity_lower) with
    | some kv => some kv.2
    | none =>
      (all_mappings.find? (fun kv => containsSub (strLower kv.2.name) entity_lower)).map
        Prod.snd

/-! Section: Specification-side helper definitions and concrete scenario inputs -/

/-- First-match association lookup in the `edge_map` dict built by
`_deduplicate_edges`. -/
def emLookup (m : List ((String × String × String) × Edge))
    (k : String × String × String) : Option Edge :=
  match m with
  | [] => none
  | kv :: rest => if kv.1 = k then some kv.2 else emLookup rest k

/-- The update the dedup loop applies to the entry stored under one key:
keep the incumbent unless the new edge has strictly more evidence. -/
def upd (o : Option Edge) (e : Edge) : Option Edge :=
  match o with
  | none => some e
  | some b => if e.evidence.count > b.evidence.count then some e else some b

/-- The running winner of a duplicate group, seeded with its first element:
a later element replaces the winner only with strictly more evidence. -/
def fmx (b : Edge) : List Edge → Edge
  | [] => b
  | e :: t => if e.evidence.count > b.evidence.count then fmx e t else fmx b t

/-- Specification of the edge dedup keeps from a duplicate group: the
first-seen element whose evidence count is at least that of every element
of the group (i.e. highest evidence, ties keeping the first-seen). -/
def firstMax (l : List Edge) : Option Edge :=
  l.find? (fun e => l.all (fun y => y.evidence.count ≤ e.evidence.count))

/-- All node ids occurring in a list of raw paths. -/
def allNodeIds (paths : List PathData) : List String :=
  (paths.flatMap (fun p => p.nodes)).map (fun n => n.id)

/-- Scenario B raw path: `PM2.5 → IL6 increases` with 30 evidence papers. -/
def pathB₁ : PathData :=
  { nodes :=
      [ { id := "PM2.5", name := "Particulate Matter (PM2.5)",
          grounding_db := "MESH", grounding_id := "D052638" }
      , { id := "IL6", name := "Interleukin-6",
          grounding_db := "HGNC", grounding_id := "6018" } ]
    edges :=
      [ { source := "PM2.5", target := "IL6", relationship := "increases",
          evidence_count := 30, belief := 0.7, statement_type := "IncreaseAmount",
          pmids := [] } ]
    path_belief := 0.7 }

/-- Scenario B raw path: the same `PM2.5 → IL6 increases` edge with 47
evidence papers. -/
def pathB₂ : PathData :=
  { nodes :=
      [ { id := "PM2.5", name := "Particulate Matter (PM2.5)",
          grounding_db := "MESH", grounding_id := "D052638" }
      , { id := "IL6", name := "Interleukin-6",
          grounding_db := "HGNC", grounding_id := "6018" } ]
    edges :=
      [ { source := "PM2.5", target := "IL6", relationship := "increases",
          evidence_count := 47, belief := 0.8, statement_type := "IncreaseAmount",
          pmids := [] } ]
    path_belief := 0.8 }

/-- A raw path whose edge references node ids that appear in no node list:
`build_causal_graph` accepts it without validation. -/
def danglingPath : PathData :=
  { nodes := []
    edges :=
      [ { source := "A", target := "B", relationship := "activates",
          evidence_count := 5, belief := 0.5, statement_type := "Activation",
          pmids := [] } ]
    path_belief := 0.5 }

/-- An environmental delta whose description is 200 characters long. -/
def longDelta : Delta :=
  { description := String.mk (List.replicate 200 'x')
    old_value := "10"
    new_value := "50" }

/-- The modifier Scenario D expects for `GSTM1 null` when only
`oxidative_stress` (and not `ROS`) is in the assembled node set. -/
def gstm1Modifier : GeneticModifier :=
  { variant := "GSTM1_null", affected_nodes := ["oxidative_stress"],
    effect_type := "amplifies", magnitude := 1.3 }

/-- The grounded record the static tables hold for `"CRP"`. -/
def crpEntity : GroundedEntity :=
  { id := "CRP", name := "C-Reactive Protein", type := "biomarker",
    database := "HGNC", identifier := "2367",
    regulators := ["IL6", "IL1B", "TNF"] }

/-- The Scenario A raw edge (`IL6 → CRP`, 312 papers, belief 0.98). -/
def edgeA : EdgeData :=
  { source := "IL6", target := "CRP", relationship := "increases",
    evidence_count := 312, belief := 0.98, statement_type := "IncreaseAmount",
    pmids := ["PMID:45678901", "PMID:56789012"] }

/-! Section: Theorems -/

/-- Claim C1 (amended).  Building a graph from the single fixture path
`IL6 → CRP` (evidence_count 312, belief 0.98) with empty genetics yields
exactly 2 nodes, 1 edge, and 0 genetic modifiers; the edge has
`temporal_lag_hours = 12` (statement type `IncreaseAmount`) and
`effect_size = 0.98·0.8 + 0.15 = 0.934` — the 0.15 high-evidence bonus is
applied, and the result stays strictly below the 0.95 cap, so the cap does
not fire. -/
theorem c1_scenarioA :
    (build_causal_graph [il6_crp_path] []).nodes.length = 2 ∧
    (build_causal_graph [il6_crp_path] []).edges.map
      (fun e => (e.effect_size, e.temporal_lag_hours)) = [(0.934, 12)] ∧
    (build_causal_graph [il6_crp_path] []).genetic_modifiers = [] := by
  refine ⟨?_, ?_, ?_⟩ <;>
    simp [build_causal_graph, collectNodes, addNode, create_node, infer_node_type,
      deduplicate_edges, insertEdge, edgeKey, create_edge, calculate_effect_size,
      TEMPORAL_LAG_MAP, apply_genetic_modifiers, il6_crp_path] <;>
    norm_num

/-- Claim C1 counterexample to the claim as stated: on the Scenario A input the
single derived edge has `effect_size = 0.934`, not the claimed capped value
`0.95` (the cap is not reached, since `0.98·0.8 + 0.15 < 0.95` is false:
`0.934 < 0.95`). -/
theorem c1_counterexample :
    (build_causal_graph [il6_crp_path] []).edges.map (fun e => e.effect_size) =
      [0.934] ∧ (0.934 : ℚ) ≠ 0.95 := by
  constructor
  · simp [build_causal_graph, collectNodes, addNode, create_node, infer_node_type,
      deduplicate_edges, insertEdge, edgeKey, create_edge, calculate_effect_size,
      TEMPORAL_LAG_MAP, apply_genetic_modifiers, il6_crp_path]
    norm_num
  · norm_num

/-- Claim C2.  For every raw edge whose belief lies in `[0,1]` (the evidence
count, a `Nat`, is always ≥ 0), the derived edge has
`effect_size ∈ [0, 0.95]` and `temporal_lag_hours ≥ 0`. -/
theorem c2_derived_edge_bounds (d : EdgeData) (h0 : 0 ≤ d.belief)
    (h1 : d.belief ≤ 1) :
    0 ≤ (create_edge d).effect_size ∧ (create_edge d).effect_size ≤ 0.95 ∧
      0 ≤ (create_edge d).temporal_lag_hours := by
  have hb : 0 ≤ d.belief * 0.8 := mul_nonneg h0 (by norm_num)
  refine ⟨?_, ?_, ?_⟩
  · show 0 ≤ calculate_effect_size d.belief d.evidence_count
    unfold calculate_effect_size
    split_ifs <;> simp only [le_min_iff] <;> constructor <;> linarith
  · show calculate_effect_size d.belief d.evidence_count ≤ 0.95
    unfold calculate_effect_size
    split_ifs <;> exact min_le_right _ _
  · show 0 ≤ TEMPORAL_LAG_MAP d.statement_type
    unfold TEMPORAL_LAG_MAP
    split_ifs <;> norm_num

/-- Claim C2 witness: the Scenario A edge (`belief 0.98`, 312 papers)
satisfies the hypotheses and the derived bounds. -/
theorem c2_derived_edge_bounds_witness :
    (0 ≤ edgeA.belief ∧ edgeA.belief ≤ 1) ∧
      (0 ≤ (create_edge edgeA).effect_size ∧
        (create_edge edgeA).effect_size ≤ 0.95 ∧
        0 ≤ (create_edge edgeA).temporal_lag_hours) :=
  ⟨⟨by norm_num [edgeA], by norm_num [edgeA]⟩,
    c2_derived_edge_bounds edgeA (by norm_num [edgeA]) (by norm_num [edgeA])⟩

/-- Claim C9.  Grounding is case-insensitive on the `CRP` pair:
`ground_entity "CRP"` (an exact key match) and `ground_entity "crp"` (a
case-insensitive key match, reached before any substring match) return the
identical record. -/
theorem c9_case_insensitive_grounding :
    ground_entity "CRP" = ground_entity "crp" ∧
    ground_entity "CRP" = some crpEntity := by
  exact ⟨by rfl, by rfl⟩

/-- Claim C4.  `find_causal_paths` consults its tiers in order: a runtime-cache
hit (key `(source, target, max_depth)`) is returned unchanged for *every*
remote outcome; on a runtime miss, a non-empty fixture entry (key
`(source, target)`) is returned and written into the runtime cache, again
for every remote outcome; and when the runtime cache misses, the fixture
store is empty for the pair, and the live call raises (`Except.error`) or
parses to nothing (`Except.ok []`), the function returns `[]` — it is a
total function, so no exception escapes. -/
theorem c4_find_paths_tiers (cache : RuntimeCache) (source target : String)
    (max_depth : Nat) (remote : Except String (List PathData)) :
    (∀ v, cacheLookup cache (runtimeKey source target max_depth) = some v →
      find_causal_paths cache source target max_depth true remote = (v, cache)) ∧
    (cacheLookup cache (runtimeKey source target max_depth) = none →
      get_cached_path source target ≠ [] →
      find_causal_paths cache source target max_depth true remote =
        (get_cached_path source target,
          (runtimeKey source target max_depth, get_cached_path source target) :: cache)) ∧
    (cacheLookup cache (runtimeKey source target max_depth) = none →
      get_cached_path source target = [] →
      (∀ err, remote = Except.error err →
        find_causal_paths cache source target max_depth true remote = ([], cache)) ∧
      (remote = Except.ok [] →
        find_causal_paths cache source target max_depth true remote = ([], cache))) := by
  refine ⟨?_, ?_, ?_⟩
  · intro v hv
    simp [find_causal_paths, hv]
  · intro h1 h2
    simp [find_causal_paths, h1, h2]
  · intro h1 h2
    constructor
    · intro err herr
      subst herr
      simp [find_causal_paths, h1, h2]
    · intro hok
      subst hok
      simp [find_causal_paths, h1, h2]

/-- Claim C4 witness: with an empty runtime cache, a pair absent from the
fixture store, and a failing remote call, `find_causal_paths` returns `[]`
and leaves the cache untouched. -/
theorem c4_find_paths_tiers_witness :
    find_causal_paths [] "UNKNOWN_X" "UNKNOWN_Y" 4 true
      (Except.error "network error") = ([], []) :=
  ((c4_find_paths_tiers [] "UNKNOWN_X" "UNKNOWN_Y" 4
      (Except.error "network error")).2.2 rfl (by decide)).1 "network error" rfl

/-- Every modifier produced by `_apply_genetic_modifiers` comes from a
`(gene, variant)` pair of the genetics map whose key hits the static table,
and records exactly the declared affected nodes present in the node set,
which form a non-empty list. -/
theorem apply_genetic_modifiers_mem {gs : List (String × String)}
    {ids : List String} {m : GeneticModifier}
    (h : m ∈ apply_genetic_modifiers gs ids) :
    ∃ gv ∈ gs, ∃ info, get_genetic_modifier (variantKey gv.1 gv.2) = some info ∧
      m = { variant := variantKey gv.1 gv.2,
            affected_nodes := info.affected_nodes.filter (fun n => n ∈ ids),
            effect_type := info.effect_type, magnitude := info.magnitude } ∧
      info.affected_nodes.filter (fun n => n ∈ ids) ≠ [] := by
  have main : ∀ (l : List (String × String)) (acc : List GeneticModifier),
      m ∈ l.foldl (applyStep ids) acc → m ∈ acc ∨
        ∃ gv ∈ l, ∃ info, get_genetic_modifier (variantKey gv.1 gv.2) = some info ∧
          m = { variant := variantKey gv.1 gv.2,
                affected_nodes := info.affected_nodes.filter (fun n => n ∈ ids),
                effect_type := info.effect_type, magnitude := info.magnitude } ∧
          info.affected_nodes.filter (fun n => n ∈ ids) ≠ [] := by
    intro l
    induction l with
    | nil => intro acc h; exact Or.inl h
    | cons gv rest ih =>
      intro acc h
      rcases ih _ h with hacc | ⟨gv2, hgv2, rest⟩
      · cases hinfo : get_genetic_modifier (variantKey gv.1 gv.2) with
        | none =>
          simp only [applyStep, hinfo] at hacc
          exact Or.inl hacc
        | some info =>
          simp only [applyStep, hinfo] at hacc
          by_cases hpres : info.affected_nodes.filter (fun n => n ∈ ids) ≠ []
          · rw [if_pos hpres] at hacc
            rcases List.mem_append.mp hacc with hacc | hacc
            · exact Or.inl hacc
            · exact Or.inr ⟨gv, List.mem_cons_self _ _, info, hinfo,
                List.mem_singleton.mp hacc, hpres⟩
          · rw [if_neg hpres] at hacc
            exact Or.inl hacc
      · exact Or.inr ⟨gv2, List.mem_cons_of_mem _ hgv2, rest⟩
  rcases main gs [] h with habs | hres
  · simp at habs
  · exact hres

/-- Claim C6.  With `genetics = {"GSTM1": "null"}` and a node set containing
`oxidative_stress` but not `ROS`, assembly produces exactly one modifier —
`effect_type "amplifies"`, `magnitude 1.3`, `affected_nodes` exactly the
present subset `["oxidative_stress"]` of the table's declared nodes — and
in general every produced modifier records a non-empty list of affected
nodes all of which are present in the node set. -/
theorem c6_gstm1_scenario (ids : List String)
    (h1 : "oxidative_stress" ∈ ids) (h2 : "ROS" ∉ ids) :
    apply_genetic_modifiers [("GSTM1", "null")] ids = [gstm1Modifier] ∧
    ∀ (gs : List (String × String)) (ids2 : List String)
      (m : GeneticModifier), m ∈ apply_genetic_modifiers gs ids2 →
        m.affected_nodes ≠ [] ∧ ∀ n ∈ m.affected_nodes, n ∈ ids2 := by
  constructor
  · have hv : variantKey "GSTM1" "null" = "GSTM1_null" := by decide
    simp [apply_genetic_modifiers, applyStep, hv, get_genetic_modifier,
      gstm1Modifier, List.filter_cons, h1, h2]
  · intro gs ids2 m hm
    obtain ⟨gv, _, info, _, hmeq, hne⟩ := apply_genetic_modifiers_mem hm
    subst hmeq
    refine ⟨hne, ?_⟩
    intro n hn
    exact of_decide_eq_true (List.mem_filter.mp hn).2

/-- Claim C6 witness: the node set `["oxidative_stress"]` satisfies both
hypotheses and yields exactly the expected single modifier. -/
theorem c6_gstm1_scenario_witness :
    apply_genetic_modifiers [("GSTM1", "null")] ["oxidative_stress"] =
      [gstm1Modifier] :=
  (c6_gstm1_scenario ["oxidative_stress"] (by decide) (by decide)).1

/-- Claim C7 (amended).  The explanation composer always returns between 3 and
5 strings (padding with the generic evidence-count summary up to 3,
truncating to 5) for every graph, environmental context, and genetics
input.  The per-string 200-character bound of the claim is *not* enforced
by the code — see the counterexample. -/
theorem c7_explanation_count (g : CausalGraph) (env : Option Delta)
    (genetics : List (String × String)) :
    3 ≤ (generate_explanations g env genetics).length ∧
      (generate_explanations g env genetics).length ≤ 5 := by
  simp only [generate_explanations, List.length_take, List.length_append,
    List.length_replicate]
  omega

set_option maxRecDepth 8192 in
/-- Claim C7 counterexample to the claim as stated: with an environmental
delta whose description is 200 characters long, the first returned
explanation is at least 200 characters, violating the "< 200 characters"
bound. -/
theorem c7_counterexample :
    200 ≤ ((generate_explanations ⟨[], [], []⟩ (some longDelta) []).headD "").length := by
  decide

/-- Every entry of the dedup map is tagged with its own edge's key. -/
theorem insertEdge_key_inv (m : List ((String × String × String) × Edge))
    (e : Edge) (hm : ∀ kv ∈ m, edgeKey kv.2 = kv.1) :
    ∀ kv ∈ insertEdge m e, edgeKey kv.2 = kv.1 := by
  induction m with
  | nil =>
    intro kv hkv
    simp only [insertEdge, List.mem_singleton] at hkv
    subst hkv
    rfl
  | cons kv0 rest ih =>
    intro kv hkv
    by_cases h : kv0.1 = edgeKey e
    · simp only [insertEdge, if_pos h] at hkv
      rcases List.mem_cons.mp hkv with hkv | hkv
      · rw [hkv]
        split
        · exact h.symm
        · exact hm kv0 (List.mem_cons_self _ _)
      · exact hm kv (List.mem_cons_of_mem _ hkv)
    · simp only [insertEdge, if_neg h] at hkv
      rcases List.mem_cons.mp hkv with hkv | hkv
      · rw [hkv]
        exact hm kv0 (List.mem_cons_self _ _)
      · exact ih (fun kv hkv => hm kv (List.mem_cons_of_mem _ hkv)) kv hkv

/-- Key-tag invariant, through the whole dedup fold. -/
theorem foldl_insertEdge_key_inv (es : List Edge) :
    ∀ (m : List ((String × String × String) × Edge)),
      (∀ kv ∈ m, edgeKey kv.2 = kv.1) →
      ∀ kv ∈ es.foldl insertEdge m, edgeKey kv.2 = kv.1 := by
  induction es with
  | nil => intro m hm; exact hm
  | cons e t ih =>
    intro m hm
    exact ih _ (insertEdge_key_inv m e hm)

/-- The key list of the dedup map after one insertion. -/
theorem insertEdge_keys (m : List ((String × String × String) × Edge)) (e : Edge) :
    (insertEdge m e).map Prod.fst =
      if edgeKey e ∈ m.map Prod.fst then m.map Prod.fst
      else m.map Prod.fst ++ [edgeKey e] := by
  induction m with
  | nil => simp [insertEdge]
  | cons kv0 rest ih =>
    by_cases h : kv0.1 = edgeKey e
    · simp only [insertEdge, if_pos h, List.map_cons]
      have hmem : edgeKey e ∈ kv0.1 :: rest.map Prod.fst := h ▸ List.mem_cons_self _ _
      rw [if_pos hmem]
      split
      · rfl
      · rfl
    · simp only [insertEdge, if_neg h, List.map_cons, ih]
      have hne : ¬ edgeKey e = kv0.1 := fun hh => h hh.symm
      by_cases hmem : edgeKey e ∈ rest.map Prod.fst
      · rw [if_pos hmem, if_pos (List.mem_cons_of_mem _ hmem)]
      · rw [if_neg hmem, if_neg ?_]
        · rfl
        · intro hcontra
          rcases List.mem_cons.mp hcontra with hcontra | hcontra
          · exact hne hcontra
          · exact hmem hcontra

/-- The dedup map never acquires a duplicate key. -/
theorem insertEdge_keys_nodup (m : List ((String × String × String) × Edge))
    (e : Edge) (hm : (m.map Prod.fst).Nodup) :
    ((insertEdge m e).map Prod.fst).Nodup := by
  rw [insertEdge_keys]
  split
  · exact hm
  · next hmem =>
    rw [List.nodup_append]
    exact ⟨hm, List.nodup_singleton _, by simpa using hmem⟩

/-- Key distinctness, through the whole dedup fold. -/
theorem foldl_insertEdge_keys_nodup (es : List Edge) :
    ∀ (m : List ((String × String × String) × Edge)),
      (m.map Prod.fst).Nodup → ((es.foldl insertEdge m).map Prod.fst).Nodup := by
  induction es with
  | nil => intro m hm; exact hm
  | cons e t ih =>
    intro m hm
    exact ih _ (insertEdge_keys_nodup m e hm)

/-- Looking one key up after one insertion: the stored entry is updated by
`upd` exactly on the inserted edge's key and untouched elsewhere. -/
theorem emLookup_insertEdge (m : List ((String × String × String) × Edge))
    (e : Edge) (k : String × String × String) :
    emLookup (insertEdge m e) k =
      if k = edgeKey e then upd (emLookup m k) e else emLookup m k := by
  induction m with
  | nil =>
    by_cases hk : k = edgeKey e
    · subst hk
      simp [insertEdge, emLookup, upd]
    · have hk2 : ¬ edgeKey e = k := fun hh => hk hh.symm
      simp only [insertEdge, emLookup, if_neg hk, if_neg hk2]
  | cons kv0 rest ih =>
    by_cases h : kv0.1 = edgeKey e
    · simp only [insertEdge, if_pos h]
      by_cases hk : k = edgeKey e
      · subst hk
        split
        · next hcnt =>
          simp [emLookup, h, upd, hcnt]
        · next hcnt =>
          simp [emLookup, h, upd, hcnt]
      · have hk0 : ¬ kv0.1 = k := by
          intro hh
          exact hk (by rw [← hh, h])
        split
        · simp [emLookup, hk0, if_neg hk]
        · simp [emLookup, hk0, if_neg hk]
    · simp only [insertEdge, if_neg h]
      by_cases hk0 : kv0.1 = k
      · have hk : ¬ k = edgeKey e := by
          intro hh
          exact h (by rw [hk0, hh])
        simp [emLookup, hk0, if_neg hk]
      · simp only [emLookup, if_neg hk0, ih]

/-- Folding the dedup step over a list of edges updates each key by folding
`upd` over exactly that key's duplicate group. -/
theorem foldl_insertEdge_emLookup (es : List Edge) :
    ∀ (m : List ((String × String × String) × Edge)) (k : String × String × String),
      emLookup (es.foldl insertEdge m) k =
        (es.filter (fun e => edgeKey e = k)).foldl upd (emLookup m k) := by
  induction es with
  | nil => intro m k; rfl
  | cons e t ih =>
    intro m k
    rw [List.foldl_cons, ih, emLookup_insertEdge]
    by_cases h : edgeKey e = k
    · rw [List.filter_cons_of_pos (by simpa using h), List.foldl_cons,
        if_pos h.symm]
    · rw [List.filter_cons_of_neg (by simpa using h), if_neg (fun hh => h hh.symm)]

/-- Folding `upd` from a seeded winner computes `fmx`. -/
theorem foldl_upd_some (t : List Edge) :
    ∀ b : Edge, t.foldl upd (some b) = some (fmx b t) := by
  induction t with
  | nil => intro b; rfl
  | cons e t2 ih =>
    intro b
    by_cases h : e.evidence.count > b.evidence.count <;>
      simp [upd, fmx, h, ih]

/-- The running winner is an element of the seeded group. -/
theorem fmx_mem (t : List Edge) : ∀ b : Edge, fmx b t ∈ b :: t := by
  induction t with
  | nil => intro b; exact List.mem_singleton.mpr rfl
  | cons e t2 ih =>
    intro b
    by_cases h : e.evidence.count > b.evidence.count
    · rw [fmx, if_pos h]
      exact List.mem_cons_of_mem _ (ih e)
    · rw [fmx, if_neg h]
      rcases List.mem_cons.mp (ih b) with hh | hh
      · rw [hh]
        exact List.mem_cons_self _ _
      · exact List.mem_cons_of_mem _ (List.mem_cons_of_mem _ hh)

/-- The running winner's evidence count dominates the seeded group. -/
theorem fmx_max (t : List Edge) :
    ∀ b : Edge, ∀ y ∈ b :: t, y.evidence.count ≤ (fmx b t).evidence.count := by
  induction t with
  | nil =>
    intro b y hy
    rw [List.mem_singleton.mp hy]
    exact le_refl _
  | cons e t2 ih =>
    intro b y hy
    by_cases h : e.evidence.count > b.evidence.count
    · rw [fmx, if_pos h]
      rcases List.mem_cons.mp hy with hy | hy
      · subst hy
        exact le_trans (le_of_lt h) (ih e e (List.mem_cons_self _ _))
      · exact ih e y hy
    · rw [fmx, if_neg h]
      rcases List.mem_cons.mp hy with hy | hy
      · exact hy ▸ ih b b (List.mem_cons_self _ _)
      · rcases List.mem_cons.mp hy with hy | hy
        · subst hy
          exact le_trans (le_of_not_lt h) (ih b b (List.mem_cons_self _ _))
        · exact ih b y (List.mem_cons_of_mem _ hy)

/-- The running winner is the *first* maximum: every group element before
it has a strictly smaller evidence count. -/
theorem fmx_split (t : List Edge) :
    ∀ b : Edge, ∃ as bs, b :: t = as ++ fmx b t :: bs ∧
      ∀ a ∈ as, a.evidence.count < (fmx b t).evidence.count := by
  induction t with
  | nil =>
    intro b
    exact ⟨[], [], rfl, by simp⟩
  | cons e t2 ih =>
    intro b
    by_cases h : e.evidence.count > b.evidence.count
    · rw [fmx, if_pos h]
      obtain ⟨as, bs, heq, hlt⟩ := ih e
      refine ⟨b :: as, bs, by rw [List.cons_append, ← heq], ?_⟩
      intro a ha
      rcases List.mem_cons.mp ha with ha | ha
      · subst ha
        exact lt_of_lt_of_le h (fmx_max t2 e e (List.mem_cons_self _ _))
      · exact hlt a ha
    · rw [fmx, if_neg h]
      obtain ⟨as, bs, heq, hlt⟩ := ih b
      cases as with
      | nil =>
        rw [List.nil_append] at heq
        injection heq with h1 h2
        refine ⟨[], e :: t2, ?_, by simp⟩
        rw [List.nil_append, ← h1]
      | cons a as2 =>
        rw [List.cons_append] at heq
        injection heq with h1 h2
        refine ⟨b :: e :: as2, bs, ?_, ?_⟩
        · rw [List.cons_append, List.cons_append, ← h2]
        · intro x hx
          have hbmem : b ∈ a :: as2 := by
            rw [← h1]
            exact List.mem_cons_self _ _
          rcases List.mem_cons.mp hx with hx | hx
          · rw [hx]
            exact hlt b hbmem
          · rcases List.mem_cons.mp hx with hx | hx
            · rw [hx]
              exact lt_of_le_of_lt (le_of_not_lt h) (hlt b hbmem)
            · exact hlt x (List.mem_cons_of_mem _ hx)

/-- On a non-empty group, the dedup spec `firstMax` picks exactly the
running winner `fmx`. -/
theorem firstMax_cons (b : Edge) (t : List Edge) :
    firstMax (b :: t) = some (fmx b t) := by
  rw [firstMax, List.find?_eq_some]
  constructor
  · simp only [List.all_eq_true, decide_eq_true_eq]
    exact fmx_max t b
  · obtain ⟨as, bs, heq, hlt⟩ := fmx_split t b
    refine ⟨as, bs, heq, ?_⟩
    intro a ha
    have hwmem : fmx b t ∈ b :: t := fmx_mem t b
    simp only [List.all_eq_true, decide_eq_true_eq, Bool.not_eq_true']
    rw [Bool.eq_false_iff]
    intro hall
    rw [List.all_eq_true] at hall
    have := hall (fmx b t) hwmem
    rw [decide_eq_true_eq] at this
    exact absurd this (not_le.mpr (hlt a ha))

/-- Folding `upd` from an empty slot over a group computes `firstMax`. -/
theorem foldl_upd_none_eq_firstMax (l : List Edge) :
    l.foldl upd none = firstMax l := by
  cases l with
  | nil => rfl
  | cons b t =>
    rw [List.foldl_cons]
    show t.foldl upd (some b) = _
    rw [foldl_upd_some, firstMax_cons]

/-- Reading the dedup map's stored values through a key filter is the same
as looking the key up, given the key-tag and distinct-keys invariants. -/
theorem filter_map_snd_eq_emLookup
    (m : List ((String × String × String) × Edge)) (k : String × String × String)
    (hinv : ∀ kv ∈ m, edgeKey kv.2 = kv.1) (hnd : (m.map Prod.fst).Nodup) :
    (m.map Prod.snd).filter (fun e => edgeKey e = k) = (emLookup m k).toList := by
  induction m with
  | nil => rfl
  | cons kv rest ih =>
    have hkv : edgeKey kv.2 = kv.1 := hinv kv (List.mem_cons_self _ _)
    have hrest_inv : ∀ kv2 ∈ rest, edgeKey kv2.2 = kv2.1 :=
      fun kv2 h2 => hinv kv2 (List.mem_cons_of_mem _ h2)
    rw [List.map_cons, List.nodup_cons] at hnd
    rw [List.map_cons]
    by_cases h : kv.1 = k
    · have hlook : emLookup (kv :: rest) k = some kv.2 := by
        simp [emLookup, h]
      rw [hlook, List.filter_cons_of_pos (by simp [hkv, h])]
      have hempty : (rest.map Prod.snd).filter (fun e => edgeKey e = k) = [] := by
        rw [List.filter_eq_nil_iff]
        intro e he
        obtain ⟨kv2, hkv2, hkv2e⟩ := List.mem_map.mp he
        have hek : edgeKey e = kv2.1 := by
          rw [← hkv2e]
          exact hrest_inv kv2 hkv2
        simp only [decide_eq_true_eq, hek]
        intro hcontra
        apply hnd.1
        rw [h, ← hcontra]
        exact List.mem_map_of_mem Prod.fst hkv2
      rw [hempty]
      rfl
    · have hlook : emLookup (kv :: rest) k = emLookup rest k := by
        simp [emLookup, h]
      rw [hlook, List.filter_cons_of_neg (by simp [hkv, h])]
      exact ih hrest_inv hnd.2

/-- The group-by-group content of `_deduplicate_edges`: for every key, the
output contains exactly the first-seen highest-evidence instance of that
key's duplicate group (and nothing for keys with no instances). -/
theorem dedup_filter_eq_firstMax (edges : List Edge) (k : String × String × String) :
    (deduplicate_edges edges).filter (fun e => edgeKey e = k) =
      (firstMax (edges.filter (fun e => edgeKey e = k))).toList := by
  rw [deduplicate_edges,
    filter_map_snd_eq_emLookup _ k
      (foldl_insertEdge_key_inv edges [] (by simp))
      (foldl_insertEdge_keys_nodup edges [] (by simp)),
    foldl_insertEdge_emLookup]
  show ((edges.filter _).foldl upd none).toList = _
  rw [foldl_upd_none_eq_firstMax]

/-- Claim C3.  Edge dedup keys by `(source, target, relationship)` and keeps,
for every duplicate group, exactly the group's first-seen instance of
maximal evidence count (`firstMax`: the first element whose count is ≥
every group element's count — highest wins, ties keep first-seen); in
particular, assembling the two Scenario B paths carrying
`PM2.5 → IL6 increases` with counts 30 and 47 retains exactly one such
edge, with count 47. -/
theorem c3_dedup_by_key_keeps_highest (edges : List Edge) :
    (∀ k : String × String × String,
      (deduplicate_edges edges).filter (fun e => edgeKey e = k) =
        (firstMax (edges.filter (fun e => edgeKey e = k))).toList) ∧
    (build_causal_graph [pathB₁, pathB₂] []).edges.map
      (fun e => (edgeKey e, e.evidence.count)) =
      [(("PM2.5", "IL6", "increases"), 47)] := by
  refine ⟨fun k => dedup_filter_eq_firstMax edges k, ?_⟩
  rfl

/-- Everything in the dedup map was inserted from an edge of the input. -/
theorem mem_insertEdge (m : List ((String × String × String) × Edge))
    (e : Edge) : ∀ kv ∈ insertEdge m e, kv ∈ m ∨ kv.2 = e := by
  induction m with
  | nil =>
    intro kv hkv
    simp only [insertEdge, List.mem_singleton] at hkv
    rw [hkv]
    exact Or.inr rfl
  | cons kv0 rest ih =>
    intro kv hkv
    by_cases h : kv0.1 = edgeKey e
    · simp only [insertEdge, if_pos h] at hkv
      rcases List.mem_cons.mp hkv with hkv | hkv
      · rw [hkv]
        split
        · exact Or.inr rfl
        · exact Or.inl (List.mem_cons_self _ _)
      · exact Or.inl (List.mem_cons_of_mem _ hkv)
    · simp only [insertEdge, if_neg h] at hkv
      rcases List.mem_cons.mp hkv with hkv | hkv
      · rw [hkv]
        exact Or.inl (List.mem_cons_self _ _)
      · rcases ih kv hkv with hin | heq
        · exact Or.inl (List.mem_cons_of_mem _ hin)
        · exact Or.inr heq

/-- Everything in the folded dedup map comes from the seed or the edges. -/
theorem mem_foldl_insertEdge (es : List Edge) :
    ∀ (m : List ((String × String × String) × Edge)),
      ∀ kv ∈ es.foldl insertEdge m, kv ∈ m ∨ kv.2 ∈ es := by
  induction es with
  | nil => intro m kv hkv; exact Or.inl hkv
  | cons e t ih =>
    intro m kv hkv
    rcases ih (insertEdge m e) kv hkv with hin | hmem
    · rcases mem_insertEdge m e kv hin with hin | heq
      · exact Or.inl hin
      · exact Or.inr (heq ▸ List.mem_cons_self _ _)
    · exact Or.inr (List.mem_cons_of_mem _ hmem)

/-- Deduplication only discards edges: its output is a subset of its
input. -/
theorem mem_of_mem_deduplicate {edges : List Edge} {e : Edge}
    (h : e ∈ deduplicate_edges edges) : e ∈ edges := by
  rw [deduplicate_edges] at h
  obtain ⟨kv, hkv, hkve⟩ := List.mem_map.mp h
  rcases mem_foldl_insertEdge edges [] kv hkv with habs | hmem
  · simp at habs
  · exact hkve ▸ hmem

/-- No two deduplicated edges share a `(source, target, relationship)`
key. -/
theorem dedup_pairwise_key_ne (edges : List Edge) :
    (deduplicate_edges edges).Pairwise (fun e₁ e₂ => edgeKey e₁ ≠ edgeKey e₂) := by
  have hinv := foldl_insertEdge_key_inv edges [] (by simp)
  have hnd := foldl_insertEdge_keys_nodup edges [] (by simp)
  rw [List.Nodup, List.pairwise_map] at hnd
  rw [deduplicate_edges, List.pairwise_map]
  refine hnd.imp_of_mem ?_
  intro kv1 kv2 h1 h2 hne
  rw [hinv kv1 h1, hinv kv2 h2]
  exact hne

/-- Ids of the nodes collected by `addNode`, as a set: first-occurrence
filtering does not change which ids are present. -/
theorem mem_foldl_addNode (l : List NodeData) :
    ∀ (acc : List Node) (x : String),
      x ∈ (l.foldl addNode acc).map (fun n => n.id) ↔
        x ∈ acc.map (fun n => n.id) ∨ x ∈ l.map (fun n => n.id) := by
  induction l with
  | nil =>
    intro acc x
    simp
  | cons d t ih =>
    intro acc x
    rw [List.foldl_cons, ih]
    unfold addNode
    by_cases h : acc.any (fun n => n.id = d.id)
    · rw [if_pos h]
      simp only [List.map_cons, List.mem_cons]
      constructor
      · rintro (hx | hx)
        · exact Or.inl hx
        · exact Or.inr (Or.inr hx)
      · rintro (hx | hx | hx)
        · exact Or.inl hx
        · rw [hx]
          simp only [List.any_eq_true, decide_eq_true_eq] at h
          obtain ⟨n, hn, hnid⟩ := h
          exact Or.inl (hnid ▸ List.mem_map_of_mem (fun n => n.id) hn)
        · exact Or.inr hx
    · rw [if_neg h]
      simp only [List.map_append, List.mem_append, List.map_cons, List.mem_cons,
        List.map_nil, List.mem_singleton]
      constructor
      · rintro ((hx | hx) | hx)
        · exact Or.inl hx
        · exact Or.inr (Or.inl (by simpa [create_node] using hx))
        · exact Or.inr (Or.inr hx)
      · rintro (hx | hx | hx)
        · exact Or.inl (Or.inl hx)
        · exact Or.inl (Or.inr (by simpa [create_node] using hx))
        · exact Or.inr hx

/-- The node-collection loop of `build_causal_graph` over all paths. -/
theorem collectNodes_eq_foldl (paths : List PathData) :
    collectNodes paths = (paths.flatMap (fun p => p.nodes)).foldl addNode [] := by
  suffices h : ∀ (ps : List PathData) (acc : List Node),
      ps.foldl (fun acc p => p.nodes.foldl addNode acc) acc =
        (ps.flatMap (fun p => p.nodes)).foldl addNode acc by
    exact h paths []
  intro ps
  induction ps with
  | nil => intro acc; rfl
  | cons p t ih =>
    intro acc
    rw [List.foldl_cons, ih, List.flatMap_cons, List.foldl_append]

/-- An id is in the assembled node set exactly when some input path lists
it. -/
theorem mem_collectNodes (paths : List PathData) (x : String) :
    x ∈ (collectNodes paths).map (fun n => n.id) ↔ x ∈ allNodeIds paths := by
  rw [collectNodes_eq_foldl, mem_foldl_addNode, allNodeIds]
  simp

/-- Claim C8 (amended).  For input paths whose edges reference only ids that
some path lists as a node — a property `build_causal_graph` does not
validate — the assembled graph satisfies all three invariants: every edge
endpoint is in the node set, every genetic modifier's affected nodes are
in the node set, and no two edges share a `(source, target, relationship)`
triple.  (The second and third hold for arbitrary inputs; the first can
fail without the hypothesis — see the counterexample.) -/
theorem c8_graph_invariants (paths : List PathData)
    (genetics : List (String × String))
    (hwf : ∀ e ∈ paths.flatMap (fun p => p.edges),
      e.source ∈ allNodeIds paths ∧ e.target ∈ allNodeIds paths) :
    (∀ e ∈ (build_causal_graph paths genetics).edges,
      e.source ∈ (build_causal_graph paths genetics).nodes.map (fun n => n.id) ∧
      e.target ∈ (build_causal_graph paths genetics).nodes.map (fun n => n.id)) ∧
    (∀ m ∈ (build_causal_graph paths genetics).genetic_modifiers,
      ∀ n ∈ m.affected_nodes,
        n ∈ (build_causal_graph paths genetics).nodes.map (fun n => n.id)) ∧
    (build_causal_graph paths genetics).edges.Pairwise
      (fun e₁ e₂ => edgeKey e₁ ≠ edgeKey e₂) := by
  refine ⟨?_, ?_, ?_⟩
  · intro e he
    have hsub : e ∈ (paths.flatMap (fun p => p.edges)).map create_edge :=
      mem_of_mem_deduplicate he
    obtain ⟨d, hd, hde⟩ := List.mem_map.mp hsub
    have hd2 := hwf d hd
    rw [← hde]
    rw [show (build_causal_graph paths genetics).nodes = collectNodes paths from rfl]
    rw [mem_collectNodes, mem_collectNodes]
    exact hd2
  · intro m hm n hn
    obtain ⟨gv, _, info, _, hmeq, _⟩ := apply_genetic_modifiers_mem hm
    rw [show (build_causal_graph paths genetics).nodes = collectNodes paths from rfl]
    subst hmeq
    have := (List.mem_filter.mp hn).2
    exact of_decide_eq_true this
  · exact dedup_pairwise_key_ne _

/-- Claim C8 witness: the Scenario A input is well-formed, and its assembled
graph satisfies the invariants. -/
theorem c8_graph_invariants_witness :
    (∀ e ∈ (build_causal_graph [il6_crp_path] []).edges,
      e.source ∈ (build_causal_graph [il6_crp_path] []).nodes.map (fun n => n.id) ∧
      e.target ∈ (build_causal_graph [il6_crp_path] []).nodes.map (fun n => n.id)) ∧
    (∀ m ∈ (build_causal_graph [il6_crp_path] []).genetic_modifiers,
      ∀ n ∈ m.affected_nodes,
        n ∈ (build_causal_graph [il6_crp_path] []).nodes.map (fun n => n.id)) ∧
    (build_causal_graph [il6_crp_path] []).edges.Pairwise
      (fun e₁ e₂ => edgeKey e₁ ≠ edgeKey e₂) :=
  c8_graph_invariants [il6_crp_path] [] (by decide)

/-- Claim C8 counterexample to the claim as stated: a path whose edge
references ids listed by no node yields a graph with an edge from `"A"`
but an empty node set, so the edge's source is not a node id. -/
theorem c8_counterexample :
    (build_causal_graph [danglingPath] []).nodes = [] ∧
    (build_causal_graph [danglingPath] []).edges.map (fun e => e.source) = ["A"] := by
  constructor
  · rfl
  · rfl

/-- Claim C5.  `rank_paths` is a pure function that permutes its input into
descending order of `score_path` — the score
`0.4·min(total_evidence/20, 1) + 0.3·path_belief + 0.3·(1/node_count)` —
with a stable sort: for every score value, the sub-list of paths carrying
that score is unchanged, so ties keep input order; and, being a function,
repeated calls on the same input return the identical list. -/
theorem c5_rank_paths_sorted_stable (paths : List PathData) :
    (rank_paths paths).Perm paths ∧
    (rank_paths paths).Pairwise (fun a b => score_path b ≤ score_path a) ∧
    (∀ q : ℚ, (rank_paths paths).filter (fun p => score_path p = q) =
      paths.filter (fun p => score_path p = q)) ∧
    rank_paths paths = rank_paths paths := by
  have htrans : ∀ a b c : PathData,
      decide (score_path b ≤ score_path a) = true →
      decide (score_path c ≤ score_path b) = true →
      decide (score_path c ≤ score_path a) = true := by
    intro a b c hab hbc
    rw [decide_eq_true_eq] at hab hbc ⊢
    exact le_trans hbc hab
  have htotal : ∀ a b : PathData,
      (decide (score_path b ≤ score_path a) ||
        decide (score_path a ≤ score_path b)) = true := by
    intro a b
    rcases le_total (score_path b) (score_path a) with h | h <;> simp [h]
  refine ⟨List.mergeSort_perm paths _, ?_, ?_, rfl⟩
  · exact (List.sorted_mergeSort htrans htotal paths).imp
      (fun h => of_decide_eq_true h)
  · intro q
    have hself : (paths.filter (fun p => score_path p = q)).filter
        (fun p => score_path p = q) = paths.filter (fun p => score_path p = q) :=
      List.filter_eq_self.mpr (fun a ha => (List.mem_filter.mp ha).2)
    have hsorted : (paths.filter (fun p => score_path p = q)).Pairwise
        (fun a b => decide (score_path b ≤ score_path a) = true) := by
      apply List.pairwise_of_forall_mem_list
      intro a ha b hb
      have ha2 : score_path a = q := of_decide_eq_true (List.mem_filter.mp ha).2
      have hb2 : score_path b = q := of_decide_eq_true (List.mem_filter.mp hb).2
      rw [decide_eq_true_eq, ha2, hb2]
    have hstep : List.Sublist (paths.filter (fun p => score_path p = q))
        (rank_paths paths) :=
      List.sublist_mergeSort htrans htotal hsorted (List.filter_sublist paths)
    have hstep2 : List.Sublist (paths.filter (fun p => score_path p = q))
        ((rank_paths paths).filter (fun p => score_path p = q)) := by
      have := List.Sublist.filter (fun p => decide (score_path p = q)) hstep
      rw [hself] at this
      exact this
    have hperm : ((rank_paths paths).filter (fun p => score_path p = q)).Perm
        (paths.filter (fun p => score_path p = q)) :=
      (List.mergeSort_perm paths _).filter _
    exact (hstep2.eq_of_length hperm.length_eq.symm).symm

/-- No slash survives `variant.replace("/", "")`. -/
theorem slash_not_mem_removeSlash (s : String) : '/' ∉ (removeSlash s).data := by
  simp [removeSlash]

/-- The character data of the built lookup key: the gene, an underscore,
then the slash-stripped variant. -/
theorem data_variantKey (g v : String) :
    (variantKey g v).data = g.data ++ '_' :: (removeSlash v).data := by
  rw [variantKey, String.data_append, String.data_append, List.append_assoc]
  rfl

/-- If, in a word `T`, every underscore is followed by a slash somewhere to
its right, then `T` cannot be split as `gene ++ "_" ++ slash-free rest` —
the shape of every built lookup key. -/
theorem key_ne_of_slash_after_sep (T : List Char)
    (hT : ∀ k, (hk : k < T.length) → T[k] = '_' → '/' ∈ T.drop (k + 1)) :
    ∀ (g s : List Char), '/' ∉ s → g ++ '_' :: s ≠ T := by
  intro g s hs heq
  have hlen : g.length < T.length := by
    rw [← heq, List.length_append, List.length_cons]
    omega
  have hdrop : T.drop g.length = '_' :: s := by
    rw [← heq]
    exact List.drop_left g ('_' :: s)
  have hcons := List.drop_eq_getElem_cons hlen
  rw [hdrop] at hcons
  injection hcons with h1 h2
  rw [h2] at hs
  exact hs (hT g.length hlen h1.symm)

/-- The three slash-carrying table keys are unreachable: no `(gene,
variant)` pair can build them, because the variant part (everything after
the key's only underscore) would have to retain a slash. -/
theorem slash_table_keys_unreachable (g v : String) :
    variantKey g v ≠ "GSTP1_Val/Val" ∧
    variantKey g v ≠ "TNF-alpha_-308G/A" ∧
    variantKey g v ≠ "SOD2_Ala/Ala" := by
  refine ⟨?_, ?_, ?_⟩ <;>
    · intro heq
      have hdata := congrArg String.data heq
      rw [data_variantKey] at hdata
      exact key_ne_of_slash_after_sep _ (by decide) g.data (removeSlash v).data
        (slash_not_mem_removeSlash v) hdata

/-- Claim C10 (amended).  The lookup key built by `_apply_genetic_modifiers`
is `gene ++ "_" ++ variant-with-every-slash-removed`, so no slash *from
the variant* ever reaches the key (a slash can appear in a key only if the
gene name itself contains one); the slash-carrying table entries
`GSTP1_Val/Val`, `TNF-alpha_-308G/A` and `SOD2_Ala/Ala` are nevertheless
unreachable for every `(gene, variant)` pair, so no assembled graph ever
contains a modifier with one of those variants, and
`genetics = {"GSTP1": "Val/Val"}` yields no modifier at all. -/
theorem c10_slash_keys_unreachable (gene variant : String)
    (genetics : List (String × String)) (ids : List String) :
    variantKey gene variant = gene ++ "_" ++ removeSlash variant ∧
    '/' ∉ (removeSlash variant).data ∧
    (variantKey gene variant ≠ "GSTP1_Val/Val" ∧
      variantKey gene variant ≠ "TNF-alpha_-308G/A" ∧
      variantKey gene variant ≠ "SOD2_Ala/Ala") ∧
    (∀ m ∈ apply_genetic_modifiers genetics ids,
      m.variant ≠ "GSTP1_Val/Val" ∧ m.variant ≠ "TNF-alpha_-308G/A" ∧
        m.variant ≠ "SOD2_Ala/Ala") ∧
    apply_genetic_modifiers [("GSTP1", "Val/Val")] ids = [] := by
  refine ⟨rfl, slash_not_mem_removeSlash variant,
    slash_table_keys_unreachable gene variant, ?_, ?_⟩
  · intro m hm
    obtain ⟨gv, _, info, _, hmeq, _⟩ := apply_genetic_modifiers_mem hm
    subst hmeq
    exact slash_table_keys_unreachable gv.1 gv.2
  · have hkey : variantKey "GSTP1" "Val/Val" = "GSTP1_ValVal" := by decide
    simp [apply_genetic_modifiers, applyStep, hkey, get_genetic_modifier]

/-- Claim C10 counterexample to the claim as stated: the claim's "no key
containing a slash is ever looked up" is universal over genetics maps, but
a gene name may itself contain a slash: the pair `("A/B", "x")` builds the
lookup key `"A/B_x"`, which contains one. -/
theorem c10_counterexample :
    variantKey "A/B" "x" = "A/B_x" ∧ '/' ∈ "A/B_x".data := by
  exact ⟨by decide, by decide⟩

end DigitalMe
